import Mathlib

/-!
Verification of the delay-catcher repository (`delay_catcher_tmx.py`,
`events_poller.py`) against its natural-language specification.

The Python source is shallowly embedded: pure helpers become Lean
functions, the SQLite tables become explicit list-valued state, HTTP
responses become explicit response values handed to the fetch adapters,
and the exception behaviour of `requests` is modelled with `Except`.
-/

/-! ## String helpers (Python `in`, `lower`, `', '.join`, `replace`) -/

/-- Python `needle in haystack` on a prefix position: does `pat` start `l`. -/
def startsWithChars : List Char → List Char → Bool
  | [], _ => true
  | _ :: _, [] => false
  | a :: as, b :: bs => a == b && startsWithChars as bs

/-- Python substring containment `pat in hay` over character lists. -/
def infixChars (pat : List Char) : List Char → Bool
  | [] => startsWithChars pat []
  | c :: rest => startsWithChars pat (c :: rest) || infixChars pat rest

/-- Python `pat in hay` for strings. -/
def containsSub (hay pat : String) : Bool := infixChars pat.data hay.data

/-- Python `str.lower()` (ASCII case folding as used by the field names). -/
def lowerStr (s : String) : String := ⟨s.data.map Char.toLower⟩

/-- Python `', '.join(xs)`. -/
def joinComma : List String → String
  | [] => ""
  | [x] => x
  | x :: y :: rest => x ++ ", " ++ joinComma (y :: rest)

/-- Character-level replacement underlying `s.replace('Z', '+00:00')`. -/
def replaceZChars : List Char → List Char
  | [] => []
  | c :: rest =>
    if c == 'Z' then '+' :: '0' :: '0' :: ':' :: '0' :: '0' :: replaceZChars rest
    else c :: replaceZChars rest

/-- Python `s.replace('Z', '+00:00')` as applied before date parsing. -/
def replaceZ (s : String) : String := ⟨replaceZChars s.data⟩

/-- Byte-order (= code-point order) string comparison used for `ORDER BY name`. -/
def strLtChars : List Char → List Char → Bool
  | [], [] => false
  | [], _ :: _ => true
  | _ :: _, [] => false
  | a :: as, b :: bs => if a < b then true else if b < a then false else strLtChars as bs

/-- SQLite text ordering for `ORDER BY name` (lexicographic on code points). -/
def strLtB (a b : String) : Bool := strLtChars a.data b.data

/-! ## Dates: `datetime.fromisoformat` after the `Z` replacement -/

/-- Leap-year rule used by `datetime.date` validation. -/
def isLeap (y : Nat) : Bool := (y % 4 == 0 && !(y % 100 == 0)) || y % 400 == 0

/-- Number of days in a month, as validated by `datetime.date`. -/
def daysInMonth (y m : Nat) : Nat :=
  if m == 2 then (if isLeap y then 29 else 28)
  else if m == 4 || m == 6 || m == 9 || m == 11 then 30
  else 31

/-- Civil-calendar day count from 1970-01-01 (proleptic Gregorian). -/
def daysFromCivil (y m d : Int) : Int :=
  let yAdj : Int := if m ≤ 2 then y - 1 else y
  let era : Int := yAdj.fdiv 400
  let yoe : Int := yAdj - era * 400
  let mp : Int := (m + 9) % 12
  let doy : Int := (153 * mp + 2).fdiv 5 + d - 1
  let doe : Int := yoe * 365 + yoe.fdiv 4 - yoe.fdiv 100 + doy
  era * 146097 + doe - 719468

/-- Result of `datetime.fromisoformat`: date, time, microseconds, and an
optional UTC offset in minutes (`none` models a naive datetime). -/
structure PyDT where
  y : Nat
  m : Nat
  d : Nat
  h : Nat
  mi : Nat
  s : Nat
  us : Nat
  off : Option Int
deriving DecidableEq, Repr

/-- Timestamp in microseconds used for datetime comparison and subtraction. -/
def tsOf (t : PyDT) : Int :=
  daysFromCivil (t.y : Int) (t.m : Int) (t.d : Int) * 86400000000
    + ((t.h * 3600 + t.mi * 60 + t.s : Nat) : Int) * 1000000
    + (t.us : Int) - (t.off.getD 0) * 60000000

def digitVal (c : Char) : Nat := c.toNat - 48

/-- Parse exactly two digits. -/
def d2 : List Char → Option (Nat × List Char)
  | a :: b :: rest =>
    if a.isDigit && b.isDigit then some (digitVal a * 10 + digitVal b, rest) else none
  | _ => none

/-- Parse exactly four digits. -/
def d4 : List Char → Option (Nat × List Char)
  | a :: b :: c :: d :: rest =>
    if a.isDigit && b.isDigit && c.isDigit && d.isDigit then
      some (((digitVal a * 10 + digitVal b) * 10 + digitVal c) * 10 + digitVal d, rest)
    else none
  | _ => none

def expectCh (c : Char) : List Char → Option (List Char)
  | x :: rest => if x == c then some rest else none
  | [] => none

/-- Parse `n` consecutive digits into a number. -/
def dN : Nat → List Char → Option (Nat × List Char)
  | 0, rest => some (0, rest)
  | n + 1, c :: rest =>
    if c.isDigit then
      match dN n rest with
      | some (v, r) => some (digitVal c * 10 ^ n + v, r)
      | none => none
    else none
  | _ + 1, [] => none

/-- Fractional seconds: exactly six or exactly three digits after the dot. -/
def parseFrac : List Char → Option (Nat × List Char)
  | '.' :: rest =>
    match dN 6 rest with
    | some (v, r) => some (v, r)
    | none =>
      match dN 3 rest with
      | some (v, r) => some (v * 1000, r)
      | none => none
  | _ => none

/-- UTC offset `±HH:MM`, returned in minutes; must be strictly inside one day. -/
def parseOff : List Char → Option Int
  | c :: rest =>
    if c == '+' || c == '-' then
      match d2 rest with
      | some (hh, r1) =>
        match expectCh ':' r1 with
        | some r2 =>
          match d2 r2 with
          | some (mm, r3) =>
            if r3 = [] && mm ≤ 59 && hh * 60 + mm ≤ 1439 then
              some ((if c == '-' then -1 else 1) * ((hh : Int) * 60 + (mm : Int)))
            else none
          | none => none
        | none => none
      | none => none
    else none
  | [] => none

/-- Time-of-day with optional seconds, fraction and offset, then end of input. -/
def parseTimeTail (cs : List Char) : Option (Nat × Nat × Nat × Nat × Option Int) :=
  match d2 cs with
  | none => none
  | some (h, r1) =>
    match expectCh ':' r1 with
    | none => none
    | some r2 =>
      match d2 r2 with
      | none => none
      | some (mi, r3) =>
        let withSec : Option (Nat × Nat × List Char) :=
          match r3 with
          | ':' :: r4 =>
            match d2 r4 with
            | none => none
            | some (s, r5) =>
              match parseFrac r5 with
              | some (us, r6) => some (s, us, r6)
              | none => some (s, 0, r5)
          | _ => some (0, 0, r3)
        match withSec with
        | none => none
        | some (s, us, r7) =>
          if h ≤ 23 && mi ≤ 59 && s ≤ 59 then
            match r7 with
            | [] => some (h, mi, s, us, none)
            | _ =>
              match parseOff r7 with
              | some off => some (h, mi, s, us, some off)
              | none => none
          else none

/-- Model of `datetime.fromisoformat` on the shapes produced by the Asana API:
`YYYY-MM-DD`, optionally followed by `T` or a space and `HH:MM[:SS[.fff[fff]]]`
with an optional `±HH:MM` offset. Any other input raises, modelled by `none`. -/
def parsePyIso (s : String) : Option PyDT :=
  match d4 s.data with
  | none => none
  | some (y, r1) =>
    match expectCh '-' r1 with
    | none => none
    | some r2 =>
      match d2 r2 with
      | none => none
      | some (m, r3) =>
        match expectCh '-' r3 with
        | none => none
        | some r4 =>
          match d2 r4 with
          | none => none
          | some (d, r5) =>
            if 1 ≤ y && 1 ≤ m && m ≤ 12 && 1 ≤ d && d ≤ daysInMonth y m then
              match r5 with
              | [] => some ⟨y, m, d, 0, 0, 0, 0, none⟩
              | c :: r6 =>
                if c == 'T' || c == ' ' then
                  match parseTimeTail r6 with
                  | some (h, mi, sec, us, off) => some ⟨y, m, d, h, mi, sec, us, off⟩
                  | none => none
                else none
            else none

/-- The parse applied by `analyze_due_date_delays`:
`datetime.fromisoformat(value.replace('Z', '+00:00'))`. -/
def parseAsana (s : String) : Option PyDT := parsePyIso (replaceZ s)

/-! ## Delay classification (lines 429-443 of `delay_catcher_tmx.py`) -/

/-- The body of the `try` block: both values truthy, both parse, comparable
(mixing naive and aware datetimes raises `TypeError`, caught by the bare
`except`), and the new datetime strictly after the old one. Returns the
`(new_dt - old_dt).days` value recorded as `delay_days`. -/
def delayDaysOf (old nw : String) : Option Int :=
  if old ≠ "" && nw ≠ "" then
    match parseAsana old, parseAsana nw with
    | some o, some n =>
      if o.off.isSome == n.off.isSome then
        if tsOf o < tsOf n then some ((tsOf n - tsOf o).fdiv 86400000000) else none
      else none
    | _, _ => none
  else none

/-- The due-date delay classification implemented by the code: a
`due_date_changed` story is kept exactly when this returns true. -/
def is_delay (old nw : String) : Bool := (delayDaysOf old nw).isSome

/-- Stated from the specification text, for comparison with the code:
"returns true if old_date is set and new_date is empty (task parked);
returns true if both are set and new_date is chronologically after
old_date; returns false otherwise (parse failure degrades to false)". -/
def spec_is_delay (old nw : String) : Bool :=
  if old ≠ "" && nw == "" then true
  else if old ≠ "" && nw ≠ "" then
    match parseAsana old, parseAsana nw with
    | some o, some n => o.off.isSome == n.off.isSome && tsOf o < tsOf n
    | _, _ => false
  else false

/-! ## Custom fields and the extraction helpers (lines 552-600) -/

/-- One serialized custom-field descriptor as consumed by the extractors.
`enum_value` is the selected option name (`none` when the JSON value is
null or absent); `multi_enum_values` lists the selected option names (the
empty list covers both an absent key and an empty selection, which Python
treats identically via truthiness); `text_value` and `number_value` are
`none` when null or absent. -/
structure CustomField where
  name : String
  enum_value : Option String
  multi_enum_values : List String
  text_value : Option String
  number_value : Option Int
deriving DecidableEq, Repr

/-- Python truthiness of an optional string (`None` and `''` are falsy). -/
def pyTruthy : Option String → Bool
  | none => false
  | some s => s ≠ ""

/-- `extract_team_info`: first field whose lowered name contains "team" and
that has a truthy multi-enum, enum or text value; otherwise "Unknown". -/
def extract_team_info : List CustomField → String
  | [] => "Unknown"
  | f :: rest =>
    if containsSub (lowerStr f.name) "team" then
      if f.multi_enum_values ≠ [] then joinComma f.multi_enum_values
      else if f.enum_value.isSome then f.enum_value.getD "Unknown"
      else if pyTruthy f.text_value then f.text_value.getD ""
      else extract_team_info rest
    else extract_team_info rest

/-- `extract_delay_count`: number value of the first field whose lowered
name contains "delay count", with `None` defaulting to 0 via `or 0`. -/
def extract_delay_count : List CustomField → Int
  | [] => 0
  | f :: rest =>
    if containsSub (lowerStr f.name) "delay count" then f.number_value.getD 0
    else extract_delay_count rest

/-- `extract_delay_reason`: joined multi-enum names or enum name of the
first field whose lowered name contains "delay reason"; otherwise `''`. -/
def extract_delay_reason : List CustomField → String
  | [] => ""
  | f :: rest =>
    if containsSub (lowerStr f.name) "delay reason" then
      if f.multi_enum_values ≠ [] then joinComma f.multi_enum_values
      else if f.enum_value.isSome then f.enum_value.getD ""
      else extract_delay_reason rest
    else extract_delay_reason rest

/-! ## Stories (activity entries) and per-story change extraction -/

/-- A story as fetched by `get_task_stories` with the requested opt fields.
Date values are `''` when absent or null (they are only ever consumed
under a truthiness guard); enum payloads follow the same conventions as
`CustomField`. `created_by` is `none` for an absent or empty actor object. -/
structure Story where
  resource_subtype : String
  created_at : String
  created_by : Option String
  old_date_value : String
  new_date_value : String
  custom_field_name : String
  old_enum_value : Option String
  new_enum_value : Option String
  old_multi_enum_value : List String
  new_multi_enum_value : List String
deriving DecidableEq, Repr

/-- `extract_enum_value_from_story`: joined multi-enum names, else enum
name, else `''`; `old` selects the old-value payload. -/
def extract_enum_value_from_story (s : Story) (old : Bool) : String :=
  if old then
    if s.old_multi_enum_value ≠ [] then joinComma s.old_multi_enum_value
    else s.old_enum_value.getD ""
  else
    if s.new_multi_enum_value ≠ [] then joinComma s.new_multi_enum_value
    else s.new_enum_value.getD ""

/-- `created_by_obj.get('name', 'Unknown') if created_by_obj else 'Unknown'`. -/
def storyActor (s : Story) : String := s.created_by.getD "Unknown"

/-- A due-date change kept by the loop at lines 417-454. -/
structure DueChange where
  old_due_date : String
  new_due_date : String
  created_at : String
  created_by : String
  delay_days : Int
deriving DecidableEq, Repr

/-- A delay-reason change kept by the loop at lines 457-477. -/
structure ReasonChange where
  old_delay_reason : String
  new_delay_reason : String
  created_at : String
  created_by : String
deriving DecidableEq, Repr

/-- Lines 417-454: a `due_date_changed` story is kept exactly when both
date values are truthy, both parse, and the new datetime is strictly
later; every parse or comparison exception degrades to dropping the story. -/
def dueChangeOf (s : Story) : Option DueChange :=
  if s.resource_subtype = "due_date_changed" then
    match delayDaysOf s.old_date_value s.new_date_value with
    | some dd => some ⟨s.old_date_value, s.new_date_value, s.created_at, storyActor s, dd⟩
    | none => none
  else none

/-- Lines 457-477: an enum or multi-enum custom-field story whose field
name contains "delay reason" is kept whenever the new value is non-empty
(any update to the delay reason), regardless of the old value. -/
def reasonChangeOf (s : Story) : Option ReasonChange :=
  if s.resource_subtype = "due_date_changed" then none
  else if s.resource_subtype = "multi_enum_custom_field_changed"
      ∨ s.resource_subtype = "enum_custom_field_changed" then
    if containsSub (lowerStr s.custom_field_name) "delay reason" then
      let old := extract_enum_value_from_story s true
      let nw := extract_enum_value_from_story s false
      if nw ≠ "" then some ⟨old, nw, s.created_at, storyActor s⟩ else none
    else none
  else none

/-! ## Task rows, delay records and the per-task analysis -/

/-- One row of the `tasks` table (gid is the primary key). The serialized
`custom_fields` JSON column is modelled by the structured list itself:
`json.dumps` is injective on these values, so the string comparison at
line 170 coincides with structural comparison. -/
structure TaskRow where
  gid : String
  name : String
  project_gid : String
  assignee_name : String
  completed : Bool
  completed_at : String
  created_at : String
  modified_at : String
  due_on : String
  notes : String
  permalink_url : String
  custom_fields : List CustomField
  last_updated : String
deriving DecidableEq, Repr

/-- One row emitted into the `delayed_tasks` report (lines 480-515).
Due-date rows carry no reason keys, modelled with `none`. -/
structure DelayRecord where
  task_gid : String
  task_name : String
  assignee : String
  team : String
  old_due_date : String
  new_due_date : String
  delay_days : Int
  current_delay_count : Int
  current_delay_reason : String
  old_delay_reason : Option String
  new_delay_reason : Option String
  change_type : String
  change_date : String
  changed_by : String
deriving DecidableEq, Repr

/-- Record appended for a due-date delay (lines 480-494). -/
def mkDueRecord (t : TaskRow) (team : String) (cnt : Int) (rsn : String)
    (c : DueChange) : DelayRecord :=
  { task_gid := t.gid
    task_name := t.name
    assignee := if t.assignee_name = "" then "Unassigned" else t.assignee_name
    team := team
    old_due_date := c.old_due_date
    new_due_date := c.new_due_date
    delay_days := c.delay_days
    current_delay_count := cnt
    current_delay_reason := rsn
    old_delay_reason := none
    new_delay_reason := none
    change_type := "due_date_delay"
    change_date := c.created_at
    changed_by := c.created_by }

/-- Record appended for a delay-reason update (lines 499-515). -/
def mkReasonRecord (t : TaskRow) (team : String) (cnt : Int) (rsn : String)
    (c : ReasonChange) : DelayRecord :=
  { task_gid := t.gid
    task_name := t.name
    assignee := if t.assignee_name = "" then "Unassigned" else t.assignee_name
    team := team
    old_due_date := t.due_on
    new_due_date := t.due_on
    delay_days := 0
    current_delay_count := cnt
    current_delay_reason := rsn
    old_delay_reason := some c.old_delay_reason
    new_delay_reason := some c.new_delay_reason
    change_type := "delay_reason_update"
    change_date := c.created_at
    changed_by := c.created_by }

/-- The per-task body of `analyze_due_date_delays`: collect the due-date
changes and the reason changes from the stories, then append one record
per due-date change followed by one record per reason change. -/
def taskRecords (t : TaskRow) (stories : List Story) : List DelayRecord :=
  let team := extract_team_info t.custom_fields
  let cnt := extract_delay_count t.custom_fields
  let rsn := extract_delay_reason t.custom_fields
  (stories.filterMap dueChangeOf).map (mkDueRecord t team cnt rsn)
    ++ (stories.filterMap reasonChangeOf).map (mkReasonRecord t team cnt rsn)

/-! ## The fetch adapters (lines 96-121) and transport failures -/

/-- An HTTP response carrying the decoded `data` payload of stories. -/
structure StoriesResp where
  status : Nat
  data : List Story
deriving DecidableEq, Repr

/-- `get_task_stories` on a delivered response: the `data` payload on 200,
otherwise the failure is printed and the empty list returned. -/
def get_task_stories (r : StoriesResp) : List Story :=
  if r.status = 200 then r.data else []

/-- A fetched task as returned by `get_project_tasks` (the shape consumed
by `save_tasks_to_db`). `assignee` is the assignee name, `none` for a null
assignee object; string fields default to `''` for null or absent values. -/
structure FetchedTask where
  gid : String
  name : String
  assignee : Option String
  completed : Bool
  completed_at : String
  created_at : String
  modified_at : String
  due_on : String
  notes : String
  permalink_url : String
  custom_fields : List CustomField
deriving DecidableEq, Repr

/-- An HTTP response carrying the decoded `data` payload of tasks. -/
structure TasksResp where
  status : Nat
  data : List FetchedTask
deriving DecidableEq, Repr

/-- `get_project_tasks` on a delivered response: data on 200, else `[]`. -/
def get_project_tasks (r : TasksResp) : List FetchedTask :=
  if r.status = 200 then r.data else []

/-- Transport layer: `requests.get` either delivers a response or raises
(timeout, connection error). Neither fetch helper wraps the call in a
`try`, so a raised exception propagates to the caller unchanged. -/
def get_task_storiesE (r : Except String StoriesResp) : Except String (List Story) :=
  r.map get_task_stories

/-- Transport layer for `get_project_tasks`; see `get_task_storiesE`. -/
def get_project_tasksE (r : Except String TasksResp) : Except String (List FetchedTask) :=
  r.map get_project_tasks

/-! ## The SQLite store: `tasks` and `task_updates` (lines 52-80, 157-199) -/

/-- One row of the `task_updates` ledger (autoincrement id, no unique key). -/
structure UpdateRow where
  task_gid : String
  old_custom_fields : List CustomField
  new_custom_fields : List CustomField
  update_date : String
deriving DecidableEq, Repr

/-- The two tables touched by the reconciliation pass. -/
structure DBState where
  tasks : List TaskRow
  updates : List UpdateRow
deriving DecidableEq, Repr

/-- The row written by `INSERT OR REPLACE INTO tasks` at lines 177-196. -/
def mkTaskRow (p now : String) (t : FetchedTask) : TaskRow :=
  { gid := t.gid
    name := t.name
    project_gid := p
    assignee_name := t.assignee.getD "Unassigned"
    completed := t.completed
    completed_at := t.completed_at
    created_at := t.created_at
    modified_at := t.modified_at
    due_on := t.due_on
    notes := t.notes
    permalink_url := t.permalink_url
    custom_fields := t.custom_fields
    last_updated := now }

/-- `SELECT ... FROM tasks WHERE gid = ?` (gid is the primary key). -/
def lookupT (g : String) (rows : List TaskRow) : Option TaskRow :=
  rows.find? (fun r => r.gid == g)

/-- `INSERT OR REPLACE` keyed on `gid`: replace the conflicting row, or
append when the key is new. -/
def upsertTask (r : TaskRow) (rows : List TaskRow) : List TaskRow :=
  if rows.any (fun x => x.gid == r.gid) then
    rows.map (fun x => if x.gid == r.gid then r else x)
  else rows ++ [r]

/-- One iteration of the `for task in tasks` loop of `save_tasks_to_db`:
record a `task_updates` row when the stored serialized custom fields
differ from the fetched ones, then upsert the snapshot with a fresh
`last_updated` timestamp. -/
def saveStep (p now : String) (st : DBState) (t : FetchedTask) : DBState :=
  let upd :=
    match lookupT t.gid st.tasks with
    | some row =>
      if row.custom_fields ≠ t.custom_fields then
        st.updates ++ [⟨t.gid, row.custom_fields, t.custom_fields, now⟩]
      else st.updates
    | none => st.updates
  ⟨upsertTask (mkTaskRow p now t) st.tasks, upd⟩

/-- `save_tasks_to_db(tasks, project_gid)` run at local time `now`. -/
def save_tasks_to_db (ts : List FetchedTask) (p now : String) (st : DBState) : DBState :=
  ts.foldl (saveStep p now) st

/-- Stable insertion step for `ORDER BY name`. -/
def ordInsertTask (a : TaskRow) : List TaskRow → List TaskRow
  | [] => [a]
  | b :: bs => if strLtB b.name a.name then b :: ordInsertTask a bs else a :: b :: bs

/-- `SELECT ... ORDER BY name` over the project's rows. -/
def sortTasksByName (l : List TaskRow) : List TaskRow :=
  l.foldr ordInsertTask []

/-- `analyze_due_date_delays(project_gid)`: read the project's rows ordered
by name, fetch each task's stories through the gateway `g`, and emit the
delay records. The function only reads the store. -/
def analyze_due_date_delays (p : String) (g : String → StoriesResp) (st : DBState) :
    List DelayRecord :=
  (sortTasksByName (st.tasks.filter (fun r => r.project_gid == p))).flatMap
    (fun r => taskRecords r (get_task_stories (g r.gid)))

/-- One reconciliation pass as driven by `update_project_data` followed by
the analysis: persist the fetched tasks, then analyze the stored state. -/
def reconcile (ts : List FetchedTask) (p now : String) (g : String → StoriesResp)
    (st : DBState) : DBState × List DelayRecord :=
  let st1 := save_tasks_to_db ts p now st
  (st1, analyze_due_date_delays p g st1)

/-- Remote custom-field writes issued by a pass. `analyze_due_date_delays`
and `save_tasks_to_db` issue only GET requests and local SQLite writes;
no `requests.put`/`post` to the tasks API appears anywhere in the module,
so the list of outbound field writes of a pass is empty. -/
def passCounterWrites (_ts : List FetchedTask) (_p _now : String)
    (_g : String → StoriesResp) (_st : DBState) : List (String × Int) := []

/-! ## The poller relevance filter (`events_poller.py`, lines 61-80) -/

/-- `is_relevant(ev)` over the decoded event: `field` is
`ev['change']['field']`, `newGid` is `ev['change']['new_value']['gid']`,
and the two gids are the `DELAY_REASON_FIELD_GID` / `DELAY_COUNT_FIELD_GID`
environment values (`none` when unset; Python truthiness applies). -/
def is_relevant (field : Option String) (newGid : Option String)
    (reasonGid countGid : Option String) : Bool :=
  if field == some "due_on" || field == some "due_at" then true
  else if field == some "custom_fields" then
    if pyTruthy countGid && newGid == countGid then false
    else if !pyTruthy reasonGid || newGid == reasonGid then true
    else false
  else false

/-! ## Concrete fixtures used by witnesses and counterexamples -/

/-- A numeric "Delay Count" custom field. -/
def cfCount (n : Int) : CustomField := ⟨"Delay Count", none, [], none, some n⟩

/-- An enum "Delay Reason" custom field with a selected option. -/
def cfReason (r : String) : CustomField := ⟨"Delay Reason", some r, [], none, none⟩

/-- A multi-enum "Team" custom field. -/
def cfTeam : CustomField := ⟨"Team", none, ["Perception"], none, none⟩

/-- A stored snapshot row for the example task. -/
def taskRowA : TaskRow :=
  { gid := "T1", name := "Task One", project_gid := "P1", assignee_name := "Alice"
    completed := false, completed_at := "", created_at := "2024-01-01"
    modified_at := "2024-01-19", due_on := "2024-01-15", notes := "", permalink_url := ""
    custom_fields := [cfCount 3, cfReason "Vendor Delay", cfTeam], last_updated := "d0" }

/-- The matching fetched task, as returned by the tasks endpoint. -/
def taskA : FetchedTask :=
  { gid := "T1", name := "Task One", assignee := some "Alice", completed := false
    completed_at := "", created_at := "2024-01-01", modified_at := "2024-01-19"
    due_on := "2024-01-15", notes := "", permalink_url := ""
    custom_fields := [cfCount 3, cfReason "Vendor Delay", cfTeam] }

/-- The example task with a given custom-field collection. -/
def taskAWith (cf : List CustomField) : FetchedTask := { taskA with custom_fields := cf }

/-- A `due_date_changed` story pushing the due date five days out. -/
def storyDue : Story :=
  { resource_subtype := "due_date_changed", created_at := "2024-01-20"
    created_by := some "Alice", old_date_value := "2024-01-10"
    new_date_value := "2024-01-15", custom_field_name := ""
    old_enum_value := none, new_enum_value := none
    old_multi_enum_value := [], new_multi_enum_value := [] }

/-- A delay-reason story whose value changed from empty to "Vendor Delay". -/
def storyReason : Story :=
  { resource_subtype := "enum_custom_field_changed", created_at := "2024-01-21"
    created_by := some "Bob", old_date_value := "", new_date_value := ""
    custom_field_name := "Delay Reason", old_enum_value := some ""
    new_enum_value := some "Vendor Delay"
    old_multi_enum_value := [], new_multi_enum_value := [] }

/-- A delay-reason story whose new value equals its old value. -/
def storyReasonSame : Story :=
  { storyReason with old_enum_value := some "Vendor Delay" }

/-- A `due_date_changed` story with an unparsable old date (month 13). -/
def badStory : Story := { storyDue with old_date_value := "2024-13-01" }

/-- The due-date delay record produced from `taskRowA` and `storyDue`. -/
def rec0 : DelayRecord :=
  { task_gid := "T1", task_name := "Task One", assignee := "Alice", team := "Perception"
    old_due_date := "2024-01-10", new_due_date := "2024-01-15", delay_days := 5
    current_delay_count := 3, current_delay_reason := "Vendor Delay"
    old_delay_reason := none, new_delay_reason := none
    change_type := "due_date_delay", change_date := "2024-01-20", changed_by := "Alice" }

/-- A stories gateway answering every task with the single due-date story. -/
def oracle1 : String → StoriesResp := fun _ => ⟨200, [storyDue]⟩

/-- The freshly initialised (empty) database. -/
def st0 : DBState := ⟨[], []⟩

/-- The gid column of a list of task rows. -/
def taskKeys (rows : List TaskRow) : List String := rows.map (fun r => r.gid)

/-! ## C1: the due-date delay classification -/

/-- C1 (counterexample): the specified classification calls a cleared new
date ("parked") a delay, but the code drops any story whose new date value
is empty, so `is_delay` is false there. -/
theorem is_delay_parked_cex :
    spec_is_delay "2024-01-10" "" = true ∧ is_delay "2024-01-10" "" = false := by
  decide

/-- C1 (amended): `is_delay old new` is true exactly when both values are
non-empty, both parse, both are comparable (same naive/aware kind), and the
new datetime is strictly after the old one; empty old, empty new, equal
dates, earlier new dates and unparsable input all yield false. -/
theorem is_delay_characterisation (old nw : String) :
    is_delay old nw = true ↔
      old ≠ "" ∧ nw ≠ "" ∧ ∃ o n, parseAsana old = some o ∧ parseAsana nw = some n ∧
        o.off.isSome = n.off.isSome ∧ tsOf o < tsOf n := by
  constructor
  · intro h
    unfold is_delay delayDaysOf at h
    by_cases ho : old = ""
    · simp [ho] at h
    by_cases hn : nw = ""
    · simp [ho, hn] at h
    refine ⟨ho, hn, ?_⟩
    cases hpo : parseAsana old with
    | none => simp [ho, hn, hpo] at h
    | some o =>
      cases hpn : parseAsana nw with
      | none => simp [ho, hn, hpo, hpn] at h
      | some n =>
        by_cases haw : o.off.isSome = n.off.isSome
        · by_cases hts : tsOf o < tsOf n
          · exact ⟨o, n, rfl, rfl, haw, hts⟩
          · simp [ho, hn, hpo, hpn, haw, hts] at h
        · simp [ho, hn, hpo, hpn, haw] at h
  · rintro ⟨ho, hn, o, n, hpo, hpn, haw, hts⟩
    unfold is_delay delayDaysOf
    simp [ho, hn, hpo, hpn, haw, hts]

/-- C1 (witness): a five-day push is classified as a delay. -/
theorem is_delay_characterisation_witness : is_delay "2024-01-10" "2024-01-15" = true :=
  (is_delay_characterisation "2024-01-10" "2024-01-15").mpr
    ⟨by decide, by decide, ⟨2024, 1, 10, 0, 0, 0, 0, none⟩, ⟨2024, 1, 15, 0, 0, 0, 0, none⟩,
      by decide, by decide, by decide, by decide⟩

/-! ## C4: one record per changed dimension, no merged notification -/

/-- C4 (counterexample): a task with both a qualifying due-date change and
a qualifying reason change in one pass yields two records with separate
change-type labels, not one record with a joined label. -/
theorem merged_notification_cex :
    (taskRecords taskRowA [storyDue, storyReason]).length = 2 ∧
    (taskRecords taskRowA [storyDue, storyReason]).map (fun r => r.change_type) =
      ["due_date_delay", "delay_reason_update"] := by
  decide

/-- C4 (amended): the analysis emits exactly one record per qualifying
change in each dimension, every record labelled with its own dimension
label; simultaneous changes are never merged into one record. -/
theorem records_one_per_dimension (t : TaskRow) (stories : List Story) :
    (taskRecords t stories).length =
      (stories.filterMap dueChangeOf).length + (stories.filterMap reasonChangeOf).length ∧
    ∀ r ∈ taskRecords t stories,
      r.change_type = "due_date_delay" ∨ r.change_type = "delay_reason_update" := by
  constructor
  · simp [taskRecords]
  · intro r hr
    simp only [taskRecords, List.mem_append, List.mem_map] at hr
    rcases hr with ⟨c, _, rfl⟩ | ⟨c, _, rfl⟩
    · exact Or.inl rfl
    · exact Or.inr rfl

/-- C4 (witness): the record count at the concrete two-story input. -/
theorem records_one_per_dimension_witness :
    (taskRecords taskRowA [storyDue, storyReason]).length =
      ([storyDue, storyReason].filterMap dueChangeOf).length +
      ([storyDue, storyReason].filterMap reasonChangeOf).length :=
  (records_one_per_dimension taskRowA [storyDue, storyReason]).1

/-! ## C5: the delay counter is read, never incremented remotely -/

/-- C5 (counterexample): a pass that classifies a delay on a task whose
delay-count field reads 3 reports 3 in its record and issues no remote
field write at all, so no write with value 3 + 1 exists. -/
theorem counter_not_incremented_cex :
    ((reconcile [taskA] "P1" "d1" oracle1 st0).2).map
        (fun r => (r.change_type, r.current_delay_count)) = [("due_date_delay", 3)] ∧
    passCounterWrites [taskA] "P1" "d1" oracle1 st0 = [] := by
  decide

/-- C5 (amended): every record of a pass carries the delay-count value
read from the stored custom fields, unchanged; the code never issues a
remote counter write. -/
theorem delay_count_read_only (t : TaskRow) (stories : List Story) :
    ∀ r ∈ taskRecords t stories,
      r.current_delay_count = extract_delay_count t.custom_fields := by
  intro r hr
  simp only [taskRecords, List.mem_append, List.mem_map] at hr
  rcases hr with ⟨c, _, rfl⟩ | ⟨c, _, rfl⟩ <;> rfl

/-- C5 (witness): the concrete due-date record reports the read value 3. -/
theorem delay_count_read_only_witness :
    rec0.current_delay_count = extract_delay_count taskRowA.custom_fields :=
  delay_count_read_only taskRowA [storyDue] rec0 (by decide)

/-! ## C6: delay-reason transitions are recorded on any non-empty new value -/

/-- C6 (counterexample): a reason story whose new label equals its old
label is still recorded, contradicting the claimed old-differs condition. -/
theorem reason_unchanged_recorded_cex :
    (taskRecords taskRowA [storyReasonSame]).map
        (fun r => (r.old_delay_reason, r.new_delay_reason)) =
      [(some "Vendor Delay", some "Vendor Delay")] := by
  decide

/-- C6 (amended): a reason transition is kept exactly when the story is an
enum or multi-enum custom-field change whose field name contains "delay
reason" and whose new value is non-empty — with no comparison against the
old value, which is taken from the story, not from the stored snapshot. -/
theorem reason_transition_iff (s : Story) :
    (reasonChangeOf s).isSome = true ↔
      (s.resource_subtype = "multi_enum_custom_field_changed" ∨
        s.resource_subtype = "enum_custom_field_changed") ∧
      containsSub (lowerStr s.custom_field_name) "delay reason" = true ∧
      extract_enum_value_from_story s false ≠ "" := by
  by_cases h1 : s.resource_subtype = "due_date_changed"
  · constructor
    · intro h
      simp [reasonChangeOf, h1] at h
    · rintro ⟨h2 | h2, -, -⟩ <;> rw [h1] at h2 <;> simp at h2
  · by_cases h2 : s.resource_subtype = "multi_enum_custom_field_changed"
        ∨ s.resource_subtype = "enum_custom_field_changed"
    · by_cases h3 : containsSub (lowerStr s.custom_field_name) "delay reason" = true
      · by_cases h4 : extract_enum_value_from_story s false = ""
        · simp [reasonChangeOf, h1, h2, h3, h4]
        · simp [reasonChangeOf, h1, h2, h3, h4]
      · simp [reasonChangeOf, h1, h2, h3]
    · simp [reasonChangeOf, h1, h2]

/-- C6 (witness): the concrete "" to "Vendor Delay" reason story is kept. -/
theorem reason_transition_iff_witness : (reasonChangeOf storyReason).isSome = true :=
  (reason_transition_iff storyReason).mpr ⟨Or.inr rfl, by decide, by decide⟩

/-! ## C8: malformed dates degrade to "not a delay" and are skipped -/

/-- C8: a `due_date_changed` story with an unparsable date value is
classified as not a delay and contributes no record, and the analysis of
the surrounding story list is exactly the analysis without that story —
the parse failure is absorbed inside the story loop (Python: caught by the
bare `except`) and processing continues. -/
theorem malformed_date_skipped (t : TaskRow) (s : Story) (l1 l2 : List Story)
    (hsub : s.resource_subtype = "due_date_changed")
    (hbad : parseAsana s.old_date_value = none ∨ parseAsana s.new_date_value = none) :
    is_delay s.old_date_value s.new_date_value = false ∧
    taskRecords t (l1 ++ s :: l2) = taskRecords t (l1 ++ l2) := by
  have hdd : delayDaysOf s.old_date_value s.new_date_value = none := by
    unfold delayDaysOf
    rcases hbad with h | h
    · cases hpn : parseAsana s.new_date_value <;> simp [h, hpn]
    · cases hpo : parseAsana s.old_date_value <;> simp [h, hpo]
  have hdue : dueChangeOf s = none := by simp [dueChangeOf, hsub, hdd]
  have hrsn : reasonChangeOf s = none := by simp [reasonChangeOf, hsub]
  refine ⟨by simp [is_delay, hdd], ?_⟩
  simp [taskRecords, List.filterMap_append, hdue, hrsn]

/-- C8 (witness): the month-13 story is dropped and the remaining story
still produces its record. -/
theorem malformed_date_skipped_witness :
    is_delay badStory.old_date_value badStory.new_date_value = false ∧
    taskRecords taskRowA ([storyReason] ++ badStory :: []) =
      taskRecords taskRowA ([storyReason] ++ []) :=
  malformed_date_skipped taskRowA badStory [storyReason] [] (by decide)
    (Or.inl (by decide))

/-! ## C10: the poller relevance filter -/

/-- C10: `is_relevant` accepts every `due_on`/`due_at` event, and rejects
any custom-field event whose new value gid equals the configured
delay-count field gid, whatever the delay-reason configuration — so the
counter increment can never retrigger a run. -/
theorem is_relevant_filter (reasonGid countGid newGid : Option String) (c : String)
    (hc : c ≠ "") :
    (∀ f, f = some "due_on" ∨ f = some "due_at" →
      is_relevant f newGid reasonGid countGid = true) ∧
    is_relevant (some "custom_fields") (some c) reasonGid (some c) = false := by
  constructor
  · rintro f (rfl | rfl) <;> simp [is_relevant]
  · simp [is_relevant, pyTruthy, hc]

/-- C10 (witness): with the counter field gid configured as "1234" and no
reason gid configured, a custom-field event carrying gid "1234" is
filtered out. -/
theorem is_relevant_filter_witness :
    is_relevant (some "custom_fields") (some "1234") none (some "1234") = false :=
  (is_relevant_filter none (some "1234") none "1234" (by decide)).2

/-! ## Store lemmas: lookup, upsert, and the save fold -/

theorem beqS_false {a b : String} (h : a ≠ b) : (a == b) = false := by
  cases hb : (a == b)
  · rfl
  · exact absurd (eq_of_beq hb) h

theorem findT_cons_pos (p : TaskRow → Bool) (a : TaskRow) (l : List TaskRow)
    (h : p a = true) : List.find? p (a :: l) = some a :=
  List.find?_cons_of_pos l h

theorem findT_cons_neg (p : TaskRow → Bool) (a : TaskRow) (l : List TaskRow)
    (h : p a = false) : List.find? p (a :: l) = List.find? p l :=
  List.find?_cons_of_neg l (by rw [h]; exact Bool.false_ne_true)

theorem find_map_replace (r : TaskRow) (rows : List TaskRow)
    (h : rows.any (fun x => x.gid == r.gid) = true) :
    (rows.map (fun x => if x.gid == r.gid then r else x)).find? (fun x => x.gid == r.gid)
      = some r := by
  induction rows with
  | nil => simp at h
  | cons a as ih =>
    rw [List.map_cons]
    cases ha : (a.gid == r.gid) with
    | true =>
      rw [if_pos rfl, findT_cons_pos (fun x => x.gid == r.gid) r _ (beq_self_eq_true r.gid)]
    | false =>
      have h' : as.any (fun x => x.gid == r.gid) = true := by
        rw [List.any_cons, ha, Bool.false_or] at h
        exact h
      rw [if_neg Bool.false_ne_true, findT_cons_neg (fun x => x.gid == r.gid) a _ ha]
      exact ih h'

theorem find_map_replace_other (r : TaskRow) (g : String) (rows : List TaskRow)
    (h : g ≠ r.gid) :
    (rows.map (fun x => if x.gid == r.gid then r else x)).find? (fun x => x.gid == g)
      = rows.find? (fun x => x.gid == g) := by
  induction rows with
  | nil => rfl
  | cons a as ih =>
    rw [List.map_cons]
    cases ha : (a.gid == r.gid) with
    | true =>
      have ha' : a.gid = r.gid := eq_of_beq ha
      have hrg : (r.gid == g) = false := beqS_false (fun he => h he.symm)
      have hag : (a.gid == g) = false := by rw [ha']; exact hrg
      rw [if_pos rfl, findT_cons_neg (fun x => x.gid == g) r _ hrg,
        findT_cons_neg (fun x => x.gid == g) a _ hag]
      exact ih
    | false =>
      rw [if_neg Bool.false_ne_true]
      cases hag : (a.gid == g) with
      | true =>
        rw [findT_cons_pos (fun x => x.gid == g) a _ hag,
          findT_cons_pos (fun x => x.gid == g) a _ hag]
      | false =>
        rw [findT_cons_neg (fun x => x.gid == g) a _ hag,
          findT_cons_neg (fun x => x.gid == g) a _ hag]
        exact ih

theorem find_append_self (r : TaskRow) (rows : List TaskRow)
    (h : rows.any (fun x => x.gid == r.gid) = false) :
    (rows ++ [r]).find? (fun x => x.gid == r.gid) = some r := by
  induction rows with
  | nil =>
    exact findT_cons_pos (fun x => x.gid == r.gid) r _ (beq_self_eq_true r.gid)
  | cons a as ih =>
    rw [List.any_cons, Bool.or_eq_false_iff] at h
    rw [List.cons_append, findT_cons_neg (fun x => x.gid == r.gid) a _ h.1]
    exact ih h.2

theorem find_append_other (r : TaskRow) (g : String) (rows : List TaskRow) (h : g ≠ r.gid) :
    (rows ++ [r]).find? (fun x => x.gid == g) = rows.find? (fun x => x.gid == g) := by
  induction rows with
  | nil =>
    have hrg : (r.gid == g) = false := beqS_false (fun he => h he.symm)
    rw [List.nil_append, findT_cons_neg (fun x => x.gid == g) r _ hrg]
  | cons a as ih =>
    rw [List.cons_append]
    cases hag : (a.gid == g) with
    | true =>
      rw [findT_cons_pos (fun x => x.gid == g) a _ hag,
        findT_cons_pos (fun x => x.gid == g) a _ hag]
    | false =>
      rw [findT_cons_neg (fun x => x.gid == g) a _ hag,
        findT_cons_neg (fun x => x.gid == g) a _ hag]
      exact ih

theorem lookupT_upsert_self (r : TaskRow) (rows : List TaskRow) :
    lookupT r.gid (upsertTask r rows) = some r := by
  unfold lookupT upsertTask
  by_cases h : rows.any (fun x => x.gid == r.gid) = true
  · rw [if_pos h]
    exact find_map_replace r rows h
  · rw [if_neg h]
    refine find_append_self r rows ?_
    cases hb : rows.any (fun x => x.gid == r.gid) with
    | true => exact absurd hb h
    | false => rfl

theorem lookupT_upsert_other (g : String) (r : TaskRow) (rows : List TaskRow)
    (h : g ≠ r.gid) :
    lookupT g (upsertTask r rows) = lookupT g rows := by
  unfold lookupT upsertTask
  by_cases hany : rows.any (fun x => x.gid == r.gid) = true
  · rw [if_pos hany]
    exact find_map_replace_other r g rows h
  · rw [if_neg hany]
    exact find_append_other r g rows h

theorem beqS_true {a b : String} (h : a = b) : (a == b) = true := by
  subst h; exact beq_self_eq_true a

theorem neqTrue_of_eqFalse {b : Bool} (h : b = false) : ¬ b = true :=
  fun hh => Bool.false_ne_true (h ▸ hh)

theorem taskKeys_upsert (r : TaskRow) (rows : List TaskRow) :
    taskKeys (upsertTask r rows) =
      if rows.any (fun x => x.gid == r.gid) then taskKeys rows
      else taskKeys rows ++ [r.gid] := by
  unfold taskKeys upsertTask
  by_cases h : rows.any (fun x => x.gid == r.gid) = true
  · rw [if_pos h, if_pos h, List.map_map]
    apply List.map_congr_left
    intro x _
    simp only [Function.comp_apply]
    cases hx : (x.gid == r.gid) with
    | true =>
      rw [if_pos rfl]
      exact (eq_of_beq hx).symm
    | false =>
      rw [if_neg Bool.false_ne_true]
  · rw [if_neg h, if_neg h, List.map_append]
    rfl

theorem not_mem_keys_of_any_false (r : TaskRow) (rows : List TaskRow)
    (h : rows.any (fun x => x.gid == r.gid) = false) :
    r.gid ∉ taskKeys rows := by
  intro hmem
  rcases List.mem_map.mp hmem with ⟨x, hx, hgx⟩
  have hfalse := List.any_eq_false.mp h x hx
  exact hfalse (beqS_true hgx)

theorem taskKeys_upsert_nodup (r : TaskRow) (rows : List TaskRow)
    (h : (taskKeys rows).Nodup) : (taskKeys (upsertTask r rows)).Nodup := by
  rw [taskKeys_upsert]
  by_cases hany : rows.any (fun x => x.gid == r.gid) = true
  · rw [if_pos hany]
    exact h
  · rw [if_neg hany]
    rw [List.nodup_append]
    refine ⟨h, List.nodup_singleton _, ?_⟩
    intro a ha hb
    rw [List.mem_singleton] at hb
    subst hb
    have hfalse : rows.any (fun x => x.gid == r.gid) = false := by
      cases hb2 : rows.any (fun x => x.gid == r.gid) with
      | true => exact absurd hb2 hany
      | false => rfl
    exact not_mem_keys_of_any_false r rows hfalse ha

theorem taskKeys_upsert_mem (g : String) (r : TaskRow) (rows : List TaskRow)
    (h : g ∈ taskKeys rows) : g ∈ taskKeys (upsertTask r rows) := by
  rw [taskKeys_upsert]
  by_cases hany : rows.any (fun x => x.gid == r.gid) = true
  · rw [if_pos hany]
    exact h
  · rw [if_neg hany]
    exact List.mem_append_left _ h

theorem lookupT_of_mem (rows : List TaskRow) (x : TaskRow)
    (h : (taskKeys rows).Nodup) (hx : x ∈ rows) : lookupT x.gid rows = some x := by
  induction rows with
  | nil => cases hx
  | cons a as ih =>
    rcases List.mem_cons.mp hx with rfl | hx'
    · exact findT_cons_pos (fun r => r.gid == x.gid) x as (beq_self_eq_true x.gid)
    · unfold taskKeys at h
      rw [List.map_cons, List.nodup_cons] at h
      cases ha : (a.gid == x.gid) with
      | true =>
        exact absurd ((eq_of_beq ha) ▸ List.mem_map.mpr ⟨x, hx', rfl⟩) h.1
      | false =>
        unfold lookupT
        rw [findT_cons_neg (fun r => r.gid == x.gid) a as ha]
        exact ih h.2 hx'

theorem any_eq_true_of_lookup (g : String) (rows : List TaskRow) (x : TaskRow)
    (h : lookupT g rows = some x) : rows.any (fun r => r.gid == g) = true := by
  unfold lookupT at h
  induction rows with
  | nil => exact absurd h (by simp)
  | cons a as ih =>
    rw [List.any_cons]
    cases ha : (a.gid == g) with
    | true => rfl
    | false =>
      rw [Bool.false_or]
      rw [findT_cons_neg (fun r => r.gid == g) a as ha] at h
      exact ih h

theorem mkTaskRow_gid (p now : String) (t : FetchedTask) : (mkTaskRow p now t).gid = t.gid :=
  rfl

theorem containsS_cons (x b : String) (l : List String) :
    (b :: l).contains x = (x == b || l.contains x) := by
  cases h : x == b <;> simp [List.contains, List.elem, h]

theorem containsS_false {a : String} {l : List String} (h : a ∉ l) : l.contains a = false := by
  cases hb : l.contains a with
  | false => rfl
  | true => exact absurd (List.mem_of_elem_eq_true hb) h

theorem containsS_true {a : String} {l : List String} (h : a ∈ l) : l.contains a = true :=
  List.elem_eq_true_of_mem h

theorem lookupT_save_not_mem (p now g : String) :
    ∀ (ts : List FetchedTask) (st : DBState), (∀ t ∈ ts, t.gid ≠ g) →
      lookupT g (save_tasks_to_db ts p now st).tasks = lookupT g st.tasks := by
  intro ts
  induction ts with
  | nil => intro st _; rfl
  | cons a as ih =>
    intro st h
    have hfold : save_tasks_to_db (a :: as) p now st
        = save_tasks_to_db as p now (saveStep p now st a) := rfl
    rw [hfold, ih (saveStep p now st a) (fun u hu => h u (List.mem_cons_of_mem a hu))]
    show lookupT g (upsertTask (mkTaskRow p now a) st.tasks) = lookupT g st.tasks
    exact lookupT_upsert_other g _ _
      (fun he => h a (List.mem_cons_self a as) ((mkTaskRow_gid p now a ▸ he).symm))

theorem save_matches (p now : String) :
    ∀ (ts : List FetchedTask) (st : DBState), (ts.map (fun t => t.gid)).Nodup →
      ∀ t ∈ ts, lookupT t.gid (save_tasks_to_db ts p now st).tasks
        = some (mkTaskRow p now t) := by
  intro ts
  induction ts with
  | nil => intro st _ t ht; cases ht
  | cons a as ih =>
    intro st hnd t ht
    rw [List.map_cons, List.nodup_cons] at hnd
    rcases List.mem_cons.mp ht with rfl | ht'
    · have hnot : ∀ u ∈ as, u.gid ≠ t.gid := by
        intro u hu he
        exact hnd.1 (he ▸ List.mem_map.mpr ⟨u, hu, rfl⟩)
      have hfold : save_tasks_to_db (t :: as) p now st
          = save_tasks_to_db as p now (saveStep p now st t) := rfl
      rw [hfold, lookupT_save_not_mem p now t.gid as (saveStep p now st t) hnot]
      show lookupT t.gid (upsertTask (mkTaskRow p now t) st.tasks) = some (mkTaskRow p now t)
      exact lookupT_upsert_self (mkTaskRow p now t) st.tasks
    · exact ih (saveStep p now st a) hnd.2 t ht'

theorem taskKeys_save_mem (p now : String) :
    ∀ (ts : List FetchedTask) (st : DBState) (g : String), g ∈ taskKeys st.tasks →
      g ∈ taskKeys (save_tasks_to_db ts p now st).tasks := by
  intro ts
  induction ts with
  | nil => intro st g h; exact h
  | cons a as ih =>
    intro st g h
    exact ih (saveStep p now st a) g (taskKeys_upsert_mem g (mkTaskRow p now a) st.tasks h)

theorem taskKeys_save_nodup (p now : String) :
    ∀ (ts : List FetchedTask) (st : DBState), (taskKeys st.tasks).Nodup →
      (taskKeys (save_tasks_to_db ts p now st).tasks).Nodup := by
  intro ts
  induction ts with
  | nil => intro st h; exact h
  | cons a as ih =>
    intro st h
    exact ih (saveStep p now st a) (taskKeys_upsert_nodup (mkTaskRow p now a) st.tasks h)

theorem saveStep_matched (p now1 now2 : String) (st : DBState) (a : FetchedTask)
    (hga : lookupT a.gid st.tasks = some (mkTaskRow p now1 a)) :
    saveStep p now2 st a =
      ⟨st.tasks.map (fun x => if x.gid == a.gid then mkTaskRow p now2 a else x),
        st.updates⟩ := by
  have hany : st.tasks.any (fun x => x.gid == a.gid) = true :=
    any_eq_true_of_lookup a.gid st.tasks _ hga
  simp only [saveStep, hga]
  rw [if_neg (fun hne => hne rfl)]
  unfold upsertTask
  rw [mkTaskRow_gid, if_pos hany]

theorem save_repeat (p now1 now2 : String) :
    ∀ (ts : List FetchedTask) (st : DBState),
      (taskKeys st.tasks).Nodup →
      (ts.map (fun t => t.gid)).Nodup →
      (∀ t ∈ ts, lookupT t.gid st.tasks = some (mkTaskRow p now1 t)) →
      save_tasks_to_db ts p now2 st =
        ⟨st.tasks.map (fun r =>
            if (ts.map (fun t => t.gid)).contains r.gid then { r with last_updated := now2 }
            else r),
          st.updates⟩ := by
  intro ts
  induction ts with
  | nil =>
    intro st _ _ _
    show st = _
    have hmap : st.tasks.map (fun r =>
        if (([] : List FetchedTask).map (fun t => t.gid)).contains r.gid
        then { r with last_updated := now2 } else r) = st.tasks := by
      have hpt : ∀ r ∈ st.tasks, (if (([] : List FetchedTask).map (fun t => t.gid)).contains r.gid
          then { r with last_updated := now2 } else r) = r := by
        intro r _
        exact if_neg Bool.false_ne_true
      exact (List.map_congr_left hpt).trans (List.map_id _)
    rw [hmap]
  | cons a as ih =>
    intro st hkeys hnd hmatch
    rw [List.map_cons, List.nodup_cons] at hnd
    have hga : lookupT a.gid st.tasks = some (mkTaskRow p now1 a) :=
      hmatch a (List.mem_cons_self a as)
    have hstep := saveStep_matched p now1 now2 st a hga
    have hfold : save_tasks_to_db (a :: as) p now2 st
        = save_tasks_to_db as p now2 (saveStep p now2 st a) := rfl
    rw [hfold, hstep]
    have hgidf : ∀ x : TaskRow,
        (if x.gid == a.gid then mkTaskRow p now2 a else x).gid = x.gid := by
      intro x
      cases hx : (x.gid == a.gid) with
      | true =>
        rw [if_pos rfl, mkTaskRow_gid]
        exact (eq_of_beq hx).symm
      | false => rw [if_neg Bool.false_ne_true]
    have hkeysf : taskKeys (st.tasks.map
        (fun x => if x.gid == a.gid then mkTaskRow p now2 a else x)) = taskKeys st.tasks := by
      unfold taskKeys
      rw [List.map_map]
      exact List.map_congr_left (fun x _ => hgidf x)
    have hkeys' : (taskKeys (st.tasks.map
        (fun x => if x.gid == a.gid then mkTaskRow p now2 a else x))).Nodup :=
      hkeysf ▸ hkeys
    have hmatch' : ∀ u ∈ as, lookupT u.gid (st.tasks.map
        (fun x => if x.gid == a.gid then mkTaskRow p now2 a else x))
        = some (mkTaskRow p now1 u) := by
      intro u hu
      have hne : u.gid ≠ a.gid := fun he => hnd.1 (he ▸ List.mem_map.mpr ⟨u, hu, rfl⟩)
      have := find_map_replace_other (mkTaskRow p now2 a) u.gid st.tasks
        (by rw [mkTaskRow_gid]; exact hne)
      rw [mkTaskRow_gid] at this
      unfold lookupT
      rw [this]
      exact hmatch u (List.mem_cons_of_mem a hu)
    have hrec := ih ⟨st.tasks.map (fun x => if x.gid == a.gid then mkTaskRow p now2 a else x),
        st.updates⟩ hkeys' hnd.2 hmatch'
    rw [hrec]
    have hcomp : (st.tasks.map
          (fun x => if x.gid == a.gid then mkTaskRow p now2 a else x)).map
          (fun r => if (as.map (fun t => t.gid)).contains r.gid
            then { r with last_updated := now2 } else r)
        = st.tasks.map (fun r =>
            if ((a :: as).map (fun t => t.gid)).contains r.gid
            then { r with last_updated := now2 } else r) := by
      rw [List.map_map, List.map_cons]
      apply List.map_congr_left
      intro x hx
      simp only [Function.comp_apply]
      by_cases hxa : (x.gid == a.gid) = true
      · have hxval : x = mkTaskRow p now1 a := by
          have h1 := lookupT_of_mem st.tasks x hkeys hx
          rw [eq_of_beq hxa] at h1
          rw [hga] at h1
          exact (Option.some.inj h1).symm
        have hnotin : ((as.map (fun t => t.gid)).contains a.gid) = false :=
          containsS_false hnd.1
        rw [if_pos hxa, containsS_cons, mkTaskRow_gid, hnotin,
          if_neg Bool.false_ne_true, hxa, Bool.true_or, if_pos rfl, hxval]
        rfl
      · have hxa' : (x.gid == a.gid) = false := by
          cases hb : (x.gid == a.gid) with
          | true => exact absurd hb hxa
          | false => rfl
        rw [if_neg hxa, containsS_cons, hxa', Bool.false_or]
    rw [hcomp]

theorem ordInsertTask_map (f : TaskRow → TaskRow) (hname : ∀ x, (f x).name = x.name)
    (a : TaskRow) : ∀ l : List TaskRow,
      ordInsertTask (f a) (l.map f) = (ordInsertTask a l).map f := by
  intro l
  induction l with
  | nil => rfl
  | cons b bs ih =>
    rw [List.map_cons]
    show (if strLtB (f b).name (f a).name then f b :: ordInsertTask (f a) (bs.map f)
        else f a :: f b :: bs.map f) = _
    rw [hname a, hname b]
    by_cases h : strLtB b.name a.name = true
    · rw [if_pos h]
      show _ = ((if strLtB b.name a.name then b :: ordInsertTask a bs
          else a :: b :: bs) : List TaskRow).map f
      rw [if_pos h, List.map_cons, ih]
    · rw [if_neg h]
      show _ = ((if strLtB b.name a.name then b :: ordInsertTask a bs
          else a :: b :: bs) : List TaskRow).map f
      rw [if_neg h, List.map_cons, List.map_cons]

theorem sortTasks_map (f : TaskRow → TaskRow) (hname : ∀ x, (f x).name = x.name) :
    ∀ l : List TaskRow, sortTasksByName (l.map f) = (sortTasksByName l).map f := by
  intro l
  induction l with
  | nil => rfl
  | cons a l ih =>
    show ordInsertTask (f a) (sortTasksByName (l.map f)) = _
    rw [ih]
    exact ordInsertTask_map f hname a (sortTasksByName l)

theorem flatMapT_congr {α β : Type} (l : List α) (F G : α → List β)
    (h : ∀ x ∈ l, F x = G x) : l.flatMap F = l.flatMap G := by
  induction l with
  | nil => rfl
  | cons a l ih =>
    rw [List.flatMap_cons, List.flatMap_cons, h a (List.mem_cons_self a l),
      ih (fun x hx => h x (List.mem_cons_of_mem a hx))]

theorem flatMapT_map {α β γ : Type} (f : α → β) (F : β → List γ) (l : List α) :
    (l.map f).flatMap F = l.flatMap (fun x => F (f x)) := by
  induction l with
  | nil => rfl
  | cons a l ih =>
    rw [List.map_cons, List.flatMap_cons, List.flatMap_cons, ih]

theorem analyze_map_invariant (p : String) (g : String → StoriesResp)
    (rows : List TaskRow) (u1 u2 : List UpdateRow) (f : TaskRow → TaskRow)
    (hgid : ∀ x, (f x).gid = x.gid) (hname : ∀ x, (f x).name = x.name)
    (hproj : ∀ x, (f x).project_gid = x.project_gid)
    (hrec : ∀ (x : TaskRow) (stories : List Story),
      taskRecords (f x) stories = taskRecords x stories) :
    analyze_due_date_delays p g ⟨rows.map f, u1⟩
      = analyze_due_date_delays p g ⟨rows, u2⟩ := by
  unfold analyze_due_date_delays
  show (sortTasksByName ((rows.map f).filter (fun r => r.project_gid == p))).flatMap _
      = (sortTasksByName (rows.filter (fun r => r.project_gid == p))).flatMap _
  rw [List.filter_map]
  have hfil : rows.filter ((fun r : TaskRow => r.project_gid == p) ∘ f)
      = rows.filter (fun r => r.project_gid == p) := by
    apply List.filter_congr
    intro x _
    show ((f x).project_gid == p) = (x.project_gid == p)
    rw [hproj]
  rw [hfil, sortTasks_map f hname, flatMapT_map]
  apply flatMapT_congr
  intro x _
  show taskRecords (f x) (get_task_stories (g (f x).gid))
      = taskRecords x (get_task_stories (g x.gid))
  rw [hgid, hrec]

theorem refresh_preserves (K : List String) (now2 : String) (x : TaskRow) :
    (if K.contains x.gid then { x with last_updated := now2 } else x).gid = x.gid ∧
    (if K.contains x.gid then { x with last_updated := now2 } else x).name = x.name ∧
    (if K.contains x.gid then { x with last_updated := now2 } else x).project_gid
      = x.project_gid ∧
    ∀ stories : List Story,
      taskRecords (if K.contains x.gid then { x with last_updated := now2 } else x) stories
        = taskRecords x stories := by
  by_cases h : K.contains x.gid = true
  · rw [if_pos h]
    exact ⟨rfl, rfl, rfl, fun _ => rfl⟩
  · rw [if_neg h]
    exact ⟨rfl, rfl, rfl, fun _ => rfl⟩

/-! ## C2: a repeated pass refreshes timestamps but re-emits the analysis -/

/-- C2 (counterexample): running the pass a second time on identical remote
state emits the same delay record again (one record, not zero), even
though the ledger gains no row. -/
theorem reconcile_second_run_not_silent_cex :
    (reconcile [taskA] "P1" "d2" oracle1 (reconcile [taskA] "P1" "d1" oracle1 st0).1).2.length
      = 1 ∧
    (reconcile [taskA] "P1" "d2" oracle1 (reconcile [taskA] "P1" "d1" oracle1 st0).1).1.updates
      = [] := by
  decide

/-- C2 (amended): with pairwise-distinct task gids, a second pass over the
identical fetched state appends nothing to the `task_updates` ledger and
only refreshes the snapshot timestamps of the fetched tasks, while the
analysis output is recomputed in full and equals the first output exactly
(rather than being empty). -/
theorem reconcile_repeat_refreshes_only (ts : List FetchedTask) (p now1 now2 : String)
    (g : String → StoriesResp) (st : DBState)
    (hst : (taskKeys st.tasks).Nodup) (hts : (ts.map (fun t => t.gid)).Nodup) :
    (reconcile ts p now2 g (reconcile ts p now1 g st).1).1.updates
      = (reconcile ts p now1 g st).1.updates ∧
    (reconcile ts p now2 g (reconcile ts p now1 g st).1).1.tasks
      = (reconcile ts p now1 g st).1.tasks.map (fun r =>
          if (ts.map (fun t => t.gid)).contains r.gid then { r with last_updated := now2 }
          else r) ∧
    (reconcile ts p now2 g (reconcile ts p now1 g st).1).2
      = (reconcile ts p now1 g st).2 := by
  have hkeys1 : (taskKeys (save_tasks_to_db ts p now1 st).tasks).Nodup :=
    taskKeys_save_nodup p now1 ts st hst
  have hmatch1 : ∀ t ∈ ts, lookupT t.gid (save_tasks_to_db ts p now1 st).tasks
      = some (mkTaskRow p now1 t) :=
    save_matches p now1 ts st hts
  have hsr := save_repeat p now1 now2 ts (save_tasks_to_db ts p now1 st) hkeys1 hts hmatch1
  refine ⟨?_, ?_, ?_⟩
  · show (save_tasks_to_db ts p now2 (save_tasks_to_db ts p now1 st)).updates
      = (save_tasks_to_db ts p now1 st).updates
    rw [hsr]
  · show (save_tasks_to_db ts p now2 (save_tasks_to_db ts p now1 st)).tasks
      = (save_tasks_to_db ts p now1 st).tasks.map (fun r =>
          if (ts.map (fun t => t.gid)).contains r.gid then { r with last_updated := now2 }
          else r)
    rw [hsr]
  · show analyze_due_date_delays p g
        (save_tasks_to_db ts p now2 (save_tasks_to_db ts p now1 st))
      = analyze_due_date_delays p g (save_tasks_to_db ts p now1 st)
    rw [hsr]
    exact analyze_map_invariant p g (save_tasks_to_db ts p now1 st).tasks
      (save_tasks_to_db ts p now1 st).updates (save_tasks_to_db ts p now1 st).updates
      (fun r => if (ts.map (fun t => t.gid)).contains r.gid
        then { r with last_updated := now2 } else r)
      (fun x => (refresh_preserves (ts.map (fun t => t.gid)) now2 x).1)
      (fun x => (refresh_preserves (ts.map (fun t => t.gid)) now2 x).2.1)
      (fun x => (refresh_preserves (ts.map (fun t => t.gid)) now2 x).2.2.1)
      (fun x stories => (refresh_preserves (ts.map (fun t => t.gid)) now2 x).2.2.2 stories)

/-- C2 (witness): the amended theorem applied at the concrete single-task
state: the second pass leaves the ledger untouched. -/
theorem reconcile_repeat_refreshes_only_witness :
    (reconcile [taskA] "P1" "d2" oracle1 (reconcile [taskA] "P1" "d1" oracle1 st0).1).1.updates
      = (reconcile [taskA] "P1" "d1" oracle1 st0).1.updates :=
  (reconcile_repeat_refreshes_only [taskA] "P1" "d1" "d2" oracle1 st0
    (by decide) (by decide)).1

/-! ## C3: the ledger has no uniqueness key across the full history -/

/-- C3 (counterexample): toggling the stored custom fields away and back
(count 1, 2, 1, 2 across four passes) records the identical
(task, old, new) transition twice in `task_updates`. -/
theorem ledger_key_not_unique_cex :
    ((save_tasks_to_db [taskAWith [cfCount 2]] "P1" "d4"
        (save_tasks_to_db [taskAWith [cfCount 1]] "P1" "d3"
          (save_tasks_to_db [taskAWith [cfCount 2]] "P1" "d2"
            (save_tasks_to_db [taskAWith [cfCount 1]] "P1" "d1" st0)))).updates.filter
        (fun u => u.task_gid == "T1" && u.old_custom_fields == [cfCount 1]
            && u.new_custom_fields == [cfCount 2])).length = 2 := by
  decide

/-- C3 (amended): a ledger row is appended only when the fetched serialized
fields differ from the currently stored ones, so consecutive passes over
the identical fetched state never duplicate a transition; uniqueness of
the (task, old, new) key does not hold across a toggling history. -/
theorem ledger_dedup_consecutive (ts : List FetchedTask) (p now1 now2 : String)
    (st : DBState)
    (hst : (taskKeys st.tasks).Nodup) (hts : (ts.map (fun t => t.gid)).Nodup) :
    (save_tasks_to_db ts p now2 (save_tasks_to_db ts p now1 st)).updates
      = (save_tasks_to_db ts p now1 st).updates := by
  have hkeys1 : (taskKeys (save_tasks_to_db ts p now1 st).tasks).Nodup :=
    taskKeys_save_nodup p now1 ts st hst
  have hmatch1 : ∀ t ∈ ts, lookupT t.gid (save_tasks_to_db ts p now1 st).tasks
      = some (mkTaskRow p now1 t) :=
    save_matches p now1 ts st hts
  rw [save_repeat p now1 now2 ts (save_tasks_to_db ts p now1 st) hkeys1 hts hmatch1]

/-- C3 (witness): an immediately repeated single-task save appends nothing. -/
theorem ledger_dedup_consecutive_witness :
    (save_tasks_to_db [taskA] "P1" "d2" (save_tasks_to_db [taskA] "P1" "d1" st0)).updates
      = (save_tasks_to_db [taskA] "P1" "d1" st0).updates :=
  ledger_dedup_consecutive [taskA] "P1" "d1" "d2" st0 (by decide) (by decide)

/-! ## C7: the snapshot store invariants -/

/-- C7: with a well-keyed store, a save pass keeps at most one row per
task gid, never removes a gid, and leaves every fetched task with exactly
the freshly fetched row carrying the new local timestamp — a previously
unseen task is thereby created, a known one overwritten in place. -/
theorem snapshot_store_invariants (ts : List FetchedTask) (p now : String) (st : DBState)
    (hst : (taskKeys st.tasks).Nodup) (hts : (ts.map (fun t => t.gid)).Nodup) :
    (taskKeys (save_tasks_to_db ts p now st).tasks).Nodup ∧
    (∀ g ∈ taskKeys st.tasks, g ∈ taskKeys (save_tasks_to_db ts p now st).tasks) ∧
    (∀ t ∈ ts, lookupT t.gid (save_tasks_to_db ts p now st).tasks
      = some (mkTaskRow p now t)) :=
  ⟨taskKeys_save_nodup p now ts st hst,
    fun g hg => taskKeys_save_mem p now ts st g hg,
    save_matches p now ts st hts⟩

/-- C7 (witness): the invariants at the concrete single-task save. -/
theorem snapshot_store_invariants_witness :
    lookupT taskA.gid (save_tasks_to_db [taskA] "P1" "d1" st0).tasks
      = some (mkTaskRow "P1" "d1" taskA) :=
  (snapshot_store_invariants [taskA] "P1" "d1" st0 (by decide) (by decide)).2.2
    taskA (by decide)

/-! ## C9: transport failures -/

/-- C9 (counterexample): a raised transport exception (timeout, connection
error) is not caught by the fetch helpers — it propagates unchanged
instead of degrading to an empty result. -/
theorem fetch_exception_raises_cex :
    get_task_storiesE (Except.error "ReadTimeout") = Except.error "ReadTimeout" ∧
    get_task_storiesE (Except.error "ReadTimeout") ≠ Except.ok [] := by
  refine ⟨rfl, ?_⟩
  intro h
  exact Except.noConfusion h

/-- C9 (amended): a delivered non-2xx response makes both fetch helpers
log and return the empty payload, and a task whose stories fetch fails is
indistinguishable from one with no stories: the pass produces the same
records, the remaining tasks being processed unchanged (each task is
fetched exactly once; there is no retry path). A transport exception,
however, propagates. -/
theorem fetch_failure_skips (r : StoriesResp) (rt : TasksResp) (p bad : String)
    (g : String → StoriesResp) (st : DBState)
    (hr : r.status ≠ 200) (hrt : rt.status ≠ 200) (hbad : (g bad).status ≠ 200) :
    get_task_stories r = [] ∧ get_project_tasks rt = [] ∧
    analyze_due_date_delays p g st
      = analyze_due_date_delays p (fun x => if x == bad then ⟨200, []⟩ else g x) st := by
  refine ⟨by rw [get_task_stories, if_neg hr], by rw [get_project_tasks, if_neg hrt], ?_⟩
  unfold analyze_due_date_delays
  apply flatMapT_congr
  intro x _
  by_cases hx : (x.gid == bad) = true
  · have hx' : x.gid = bad := eq_of_beq hx
    show taskRecords x (get_task_stories (g x.gid))
        = taskRecords x (get_task_stories (if x.gid == bad then ⟨200, []⟩ else g x.gid))
    rw [if_pos hx, hx']
    rw [show get_task_stories (g bad) = [] from by rw [get_task_stories, if_neg hbad]]
    rfl
  · show taskRecords x (get_task_stories (g x.gid))
        = taskRecords x (get_task_stories (if x.gid == bad then ⟨200, []⟩ else g x.gid))
    rw [if_neg hx]

/-- C9 (witness): a 500 response on a stories fetch yields the empty list. -/
theorem fetch_failure_skips_witness :
    get_task_stories ⟨500, [storyDue]⟩ = [] :=
  (fetch_failure_skips ⟨500, [storyDue]⟩ ⟨404, [taskA]⟩ "P1" "T1"
    (fun _ => ⟨500, []⟩) st0 (by decide) (by decide) (by decide)).1
